import Mathlib

/-!
Verification of the regex-test-suite runner (`bin/run_tests.py`) and suite
validator (`bin/validate_suite.py`).

The Python code drives an external regex capability (`re`).  Functions of the
repository are embedded as executable Lean definitions; the external `re`
engine appears as explicit function parameters (`rc` for `re.compile`,
`sf` for position-based search), plus a small concrete model of `re`
restricted to the pattern fragment the concrete test inputs here use.
-/

/-- Embeds the `TestResult` class of `bin/run_tests.py`: a pass/fail flag and a
message (defaulting to the empty string). -/
structure TestResult where
  passed : Bool
  message : String
  deriving DecidableEq, Repr

/-- Embeds the mutable counters set up in `RegexTestRunner.__init__`. -/
structure RunnerState where
  total_tests : Nat
  passed_tests : Nat
  failed_tests : Nat
  skipped_tests : Nat
  deriving DecidableEq, Repr

/-- Embeds `RegexTestRunner()` right after `__init__`: all counters zero. -/
def initRunner : RunnerState :=
  { total_tests := 0, passed_tests := 0, failed_tests := 0, skipped_tests := 0 }

/-- An expected-match record of a suite file as `run_test`/`compare_match`
read it: fields `start`, `end`, `match`, and the optional `groups` list whose
entries may be JSON `null` (a group that did not participate). -/
structure Expected where
  start : Nat
  end_ : Nat
  matchStr : String
  groups : Option (List (Option String))
  deriving DecidableEq, Repr

/-- A test record: `description`, `input`, and the expected-match list (the
`matches` key of the JSON record). -/
structure Test where
  description : String
  input : String
  matchList : List Expected
  deriving DecidableEq, Repr

/-- A test-case record: `description`, `pattern`, optional `flags`
(`test_case.get("flags", "")`), and its tests. -/
structure TestCase where
  description : String
  pattern : String
  flags : Option String
  tests : List Test
  deriving DecidableEq, Repr

/-- A match object as the external `re` engine hands it back: `m.start()`,
`m.end()`, `m.group(0)`, and `list(m.groups())` where a group that did not
participate is `None`. -/
structure MatchData where
  start : Nat
  end_ : Nat
  group0 : String
  groups : List (Option String)
  deriving DecidableEq, Repr

/-- Python `f"{x}"` on an optional group value: `None` prints as `None`,
a string prints as itself. -/
def pyShow : Option String → String
  | none => "None"
  | some s => s

/-- Python `"c" in s` for a single-character `c`: membership of the character
in the string. -/
def pyIn (c : Char) (s : String) : Bool :=
  s.data.contains c

/-- Embeds the flag computation of `RegexTestRunner.compile_pattern`
(lines 25-35): starting from `0`, OR in `re.IGNORECASE` (2) for `"i"`,
`re.MULTILINE` (8) for `"m"`, `re.DOTALL` (16) for `"s"`, `re.VERBOSE` (64)
for `"x"`, and `re.UNICODE` (32) for `"u"`, each when the character occurs in
the flags string. -/
def flagValue (flags : String) : Nat :=
  let fv : Nat := 0
  let fv := if pyIn 'i' flags then fv ||| 2 else fv
  let fv := if pyIn 'm' flags then fv ||| 8 else fv
  let fv := if pyIn 's' flags then fv ||| 16 else fv
  let fv := if pyIn 'x' flags then fv ||| 64 else fv
  let fv := if pyIn 'u' flags then fv ||| 32 else fv
  fv

/-- Embeds `RegexTestRunner.compile_pattern`: compute the flag value and call
`re.compile` (the external engine, modelled by `rc`, already returning `none`
where the Python code catches `re.error` and returns `None`). -/
def compile_pattern {P : Type} (rc : String → Nat → Option P)
    (pattern : String) (flags : String) : Option P :=
  rc pattern (flagValue flags)

/-- Model of `pattern.search(input_str)` for an engine whose primitive is
leftmost search from a given position: search from position 0. -/
def re_search {P : Type} (sf : P → String → Nat → Option MatchData)
    (pattern : P) (input_str : String) : Option MatchData :=
  sf pattern input_str 0

/-- Fuel-indexed scanning loop behind `re_finditer`: find a match at or after
`pos`, emit it, and continue after its end (one past it for a zero-width
match, as CPython's scanner does to make progress). -/
def finditerAux {P : Type} (sf : P → String → Nat → Option MatchData)
    (pattern : P) (input_str : String) : Nat → Nat → List MatchData
  | 0, _ => []
  | Nat.succ fuel, pos =>
    match sf pattern input_str pos with
    | none => []
    | some m =>
      m :: finditerAux sf pattern input_str fuel
        (if m.end_ = m.start then m.end_ + 1 else m.end_)

/-- Model of `list(pattern.finditer(input_str))`: the documented contract of
`re.finditer` — all non-overlapping matches, scanning left to right, each
further search resuming after the previous match's end. -/
def re_finditer {P : Type} (sf : P → String → Nat → Option MatchData)
    (pattern : P) (input_str : String) : List MatchData :=
  finditerAux sf pattern input_str (input_str.length + 2) 0

/-- Embeds `RegexTestRunner.find_matches` (lines 41-48): global mode returns
`list(pattern.finditer(input_str))`; otherwise `[match] if match else []`
with `match = pattern.search(input_str)`. -/
def find_matches {P : Type} (sf : P → String → Nat → Option MatchData)
    (pattern : P) (input_str : String) (global_flag : Bool) : List MatchData :=
  if global_flag then
    re_finditer sf pattern input_str
  else
    match re_search sf pattern input_str with
    | some m => [m]
    | none => []

/-- The group-comparison loop of `compare_match` (lines 79-86): walk
`zip(expected_groups, actual_groups)` with its index, returning the first
index and differing pair, if any. -/
def groupLoop : Nat → List (Option String × Option String) →
    Option (Nat × Option String × Option String)
  | _, [] => none
  | i, (eg, ag) :: rest =>
    if eg ≠ ag then some (i, eg, ag) else groupLoop (i + 1) rest

/-- Embeds `RegexTestRunner.compare_match` (lines 50-88): check `start`, then
`end`, then `group(0)` against `expected["match"]`, then — only when the
expectation carries a `groups` key — the group count and each group value in
order, returning the diagnostics verbatim. -/
def compare_match (actual : MatchData) (expected : Expected) : TestResult :=
  if actual.start ≠ expected.start then
    let e := expected.start
    let a := actual.start
    { passed := false, message := s!"Start position mismatch: expected {e}, got {a}" }
  else if actual.end_ ≠ expected.end_ then
    let e := expected.end_
    let a := actual.end_
    { passed := false, message := s!"End position mismatch: expected {e}, got {a}" }
  else if actual.group0 ≠ expected.matchStr then
    let e := expected.matchStr
    let a := actual.group0
    { passed := false, message := s!"Match text mismatch: expected \x27{e}\x27, got \x27{a}\x27" }
  else
    match expected.groups with
    | some expected_groups =>
      let actual_groups := actual.groups
      if actual_groups.length ≠ expected_groups.length then
        let e := expected_groups.length
        let a := actual_groups.length
        { passed := false, message := s!"Group count mismatch: expected {e}, got {a}" }
      else
        match groupLoop 0 (expected_groups.zip actual_groups) with
        | some (i, eg, ag) =>
          let k := i + 1
          let e := pyShow eg
          let a := pyShow ag
          { passed := false, message := s!"Group {k} mismatch: expected \x27{e}\x27, got \x27{a}\x27" }
        | none => { passed := true, message := "" }
    | none => { passed := true, message := "" }

/-- The pairwise comparison loop of `run_test` (lines 117-121): first index
whose `compare_match` fails, with its message. -/
def compareLoop : Nat → List (MatchData × Expected) → Option (Nat × String)
  | _, [] => none
  | i, (actual, expected) :: rest =>
    let result := compare_match actual expected
    if result.passed then compareLoop (i + 1) rest else some (i, result.message)

/-- Embeds `RegexTestRunner.run_test` (lines 90-124): bump `total_tests`,
compile the pattern; on compile failure pass iff the expected-match list is
empty; otherwise run `find_matches` in the mode selected by `"g" in flags`,
fail on a count mismatch, else compare pairwise and pass iff no pair
mismatches, updating `passed_tests`/`failed_tests` as the source does. -/
def run_test {P : Type} (rc : String → Nat → Option P)
    (sf : P → String → Nat → Option MatchData)
    (st : RunnerState) (test_case : TestCase) (test : Test) :
    TestResult × RunnerState :=
  let st1 : RunnerState := { st with total_tests := st.total_tests + 1 }
  let pattern_str := test_case.pattern
  let flags := test_case.flags.getD ""
  let input_str := test.input
  let expected_matches := test.matchList
  match compile_pattern rc pattern_str flags with
  | none =>
    if expected_matches.length = 0 then
      ({ passed := true, message := "Invalid pattern correctly rejected" },
       { st1 with passed_tests := st1.passed_tests + 1 })
    else
      ({ passed := false, message := "Failed to compile pattern" },
       { st1 with failed_tests := st1.failed_tests + 1 })
  | some pattern =>
    let global_flag := pyIn 'g' flags
    let actual_matches := find_matches sf pattern input_str global_flag
    if actual_matches.length ≠ expected_matches.length then
      let e := expected_matches.length
      let a := actual_matches.length
      ({ passed := false, message := s!"Match count mismatch: expected {e}, got {a}" },
       { st1 with failed_tests := st1.failed_tests + 1 })
    else
      match compareLoop 0 (actual_matches.zip expected_matches) with
      | some (i, msg) =>
        ({ passed := false, message := s!"Match {i}: {msg}" },
         { st1 with failed_tests := st1.failed_tests + 1 })
      | none =>
        ({ passed := true, message := "" },
         { st1 with passed_tests := st1.passed_tests + 1 })

/-- Embeds `RegexTestRunner.run_test_file` (lines 126-148) after JSON loading:
run every test of every case, tracking the file-passed flag. -/
def run_test_file {P : Type} (rc : String → Nat → Option P)
    (sf : P → String → Nat → Option MatchData)
    (st : RunnerState) (test_cases : List TestCase) : RunnerState × Bool :=
  test_cases.foldl
    (fun acc test_case =>
      test_case.tests.foldl
        (fun acc2 test =>
          let r := run_test rc sf acc2.1 test_case test
          (r.2, acc2.2 && r.1.passed))
        acc)
    (st, true)

/-- Python `/` on integers with the divisor possibly zero: raising
`ZeroDivisionError` is modelled as `Except.error` (the numeric value of the
quotient is not used by the caller, only printed). -/
def pyDiv (a b : Nat) : Except String Nat :=
  if b = 0 then Except.error "ZeroDivisionError: division by zero"
  else Except.ok (a / b)

/-- Embeds `RegexTestRunner.run_suite` (lines 150-184) after file discovery:
run every file, then compute the summary line
`100 * self.passed_tests / self.total_tests` (which raises when no test ran)
and return `self.failed_tests == 0`. -/
def run_suite {P : Type} (rc : String → Nat → Option P)
    (sf : P → String → Nat → Option MatchData)
    (st : RunnerState) (files : List (List TestCase)) :
    Except String (RunnerState × Bool) :=
  let final := files.foldl (fun acc f => (run_test_file rc sf acc f).1) st
  match pyDiv (100 * final.passed_tests) final.total_tests with
  | Except.error e => Except.error e
  | Except.ok _ => Except.ok (final, final.failed_tests == 0)

/-! ### Suite validator (`bin/validate_suite.py`) -/

/-- A parsed JSON value, as `json.load` produces for suite files. -/
inductive JValue where
  | null : JValue
  | bool : Bool → JValue
  | num : Int → JValue
  | str : String → JValue
  | arr : List JValue → JValue
  | obj : List (String × JValue) → JValue
  deriving Repr

/-- Python `isinstance(v, int)`; note Python `bool` is a subclass of `int`. -/
def pyIsInt : JValue → Bool
  | JValue.num _ => true
  | JValue.bool _ => true
  | _ => false

/-- Python `isinstance(v, str)`. -/
def pyIsStr : JValue → Bool
  | JValue.str _ => true
  | _ => false

/-- Python `isinstance(v, list)`. -/
def pyIsArr : JValue → Bool
  | JValue.arr _ => true
  | _ => false

/-- The integer value of a JSON value Python treats as an `int` (`True` is 1,
`False` is 0). -/
def pyToInt : JValue → Int
  | JValue.num n => n
  | JValue.bool b => if b then 1 else 0
  | _ => 0

/-- Python `key in dct` on a parsed JSON object. -/
def hasKey (fields : List (String × JValue)) (k : String) : Bool :=
  fields.any (fun p => p.1 == k)

/-- Python `dct[key]` on a parsed JSON object (keys of well-formed suite files
are unique). -/
def getKey (fields : List (String × JValue)) (k : String) : Option JValue :=
  (fields.find? (fun p => p.1 == k)).map (fun p => p.2)

/-- Embeds the per-expected-match block of `validate_test_file`
(lines 84-137): required fields `start`/`end`/`match`, the integer and
non-negativity checks, `end >= start`, and the type checks of `match` and
`groups`, appended in source order. -/
def validateMatchEntry (mp : String) (m : JValue) : List String :=
  match m with
  | JValue.obj fields =>
    let reqErrs :=
      (["start", "end", "match"].filter (fun f => hasKey fields f = false)).map
        (fun f => mp ++ "Missing required field \x27" ++ f ++ "\x27")
    let startErrs :=
      match getKey fields "start" with
      | none => []
      | some v =>
        if pyIsInt v = false then [mp ++ "\x27start\x27 must be an integer"]
        else if pyToInt v < 0 then [mp ++ "\x27start\x27 must be non-negative"]
        else []
    let endErrs :=
      match getKey fields "end" with
      | none => []
      | some v =>
        if pyIsInt v = false then [mp ++ "\x27end\x27 must be an integer"]
        else if pyToInt v < 0 then [mp ++ "\x27end\x27 must be non-negative"]
        else []
    let relErrs :=
      match getKey fields "start", getKey fields "end" with
      | some sv, some ev =>
        if pyIsInt sv && pyIsInt ev then
          if pyToInt ev < pyToInt sv then [mp ++ "\x27end\x27 must be >= \x27start\x27"]
          else []
        else []
      | _, _ => []
    let matchErrs :=
      match getKey fields "match" with
      | none => []
      | some v => if pyIsStr v = false then [mp ++ "\x27match\x27 must be a string"] else []
    let groupErrs :=
      match getKey fields "groups" with
      | none => []
      | some v => if pyIsArr v = false then [mp ++ "\x27groups\x27 must be an array"] else []
    reqErrs ++ startErrs ++ endErrs ++ relErrs ++ matchErrs ++ groupErrs
  | _ => [mp ++ "Must be an object"]

/-- Embeds the per-test block of `validate_test_file` (lines 56-96): required
fields `description`/`input`/`matches`, their type checks, and each match
entry in order. -/
def validateTestEntry (tp : String) (t : JValue) : List String :=
  match t with
  | JValue.obj fields =>
    let reqErrs :=
      (["description", "input", "matches"].filter (fun f => hasKey fields f = false)).map
        (fun f => tp ++ "Missing required field \x27" ++ f ++ "\x27")
    let descErrs :=
      match getKey fields "description" with
      | none => []
      | some v => if pyIsStr v = false then [tp ++ "\x27description\x27 must be a string"] else []
    let inputErrs :=
      match getKey fields "input" with
      | none => []
      | some v => if pyIsStr v = false then [tp ++ "\x27input\x27 must be a string"] else []
    let matchesErrs :=
      match getKey fields "matches" with
      | none => []
      | some v =>
        match v with
        | JValue.arr ms =>
          (ms.enum.map (fun (idx, m2) =>
            validateMatchEntry (tp ++ s!"Match {idx}: ") m2)).flatten
        | _ => [tp ++ "\x27matches\x27 must be an array"]
    reqErrs ++ descErrs ++ inputErrs ++ matchesErrs
  | _ => [tp ++ "Must be an object"]

/-- Embeds the per-test-case block of `validate_test_file` (lines 24-54):
required fields `description`/`pattern`/`tests`, the non-empty description
check, the type checks of `pattern` and `flags`, the non-empty `tests` array
check, and each test in order. -/
def validateCaseEntry (cp : String) (tc : JValue) : List String :=
  match tc with
  | JValue.obj fields =>
    let reqErrs :=
      (["description", "pattern", "tests"].filter (fun f => hasKey fields f = false)).map
        (fun f => cp ++ "Missing required field \x27" ++ f ++ "\x27")
    let descErrs :=
      match getKey fields "description" with
      | none => []
      | some v =>
        if pyIsStr v = false then [cp ++ "\x27description\x27 must be a string"]
        else
          match v with
          | JValue.str s =>
            if s.data.all Char.isWhitespace then [cp ++ "\x27description\x27 cannot be empty"]
            else []
          | _ => []
    let patternErrs :=
      match getKey fields "pattern" with
      | none => []
      | some v => if pyIsStr v = false then [cp ++ "\x27pattern\x27 must be a string"] else []
    let flagsErrs :=
      match getKey fields "flags" with
      | none => []
      | some v => if pyIsStr v = false then [cp ++ "\x27flags\x27 must be a string"] else []
    let testsErrs :=
      match getKey fields "tests" with
      | none => []
      | some v =>
        match v with
        | JValue.arr ts =>
          if ts.length = 0 then [cp ++ "\x27tests\x27 array cannot be empty"]
          else
            (ts.enum.map (fun (idx, t2) =>
              validateTestEntry (cp ++ s!"Test {idx}: ") t2)).flatten
        | _ => [cp ++ "\x27tests\x27 must be an array"]
    reqErrs ++ descErrs ++ patternErrs ++ flagsErrs ++ testsErrs
  | _ => [cp ++ "Must be an object"]

/-- Embeds `validate_test_file` (lines 20-139) on a successfully parsed JSON
value: check the root is an array, then collect every test case's violations
in order. -/
def validate_test_file (data : JValue) : List String :=
  match data with
  | JValue.arr cases =>
    (cases.enum.map (fun (idx, tc) =>
      validateCaseEntry s!"Test case {idx}: " tc)).flatten
  | _ => ["Root element must be an array"]

/-- Embeds `validate_test_file` including its JSON-decoding guard
(lines 12-18): a file whose content fails to parse reports a single
`Invalid JSON` error. -/
def validate_file (parsed : Except String JValue) : List String :=
  match parsed with
  | Except.error e => ["Invalid JSON: " ++ e]
  | Except.ok data => validate_test_file data

/-- The per-file error lists `main` (lines 160-176) prints, in file order. -/
def validateReport (files : List (Except String JValue)) : List (List String) :=
  files.map validate_file

/-- Embeds the exit decision of `main` (lines 177-184): accumulate
`total_errors` over every file and exit `0` exactly when it is zero,
otherwise `1`. -/
def validate_main (files : List (Except String JValue)) : Nat :=
  let total_errors := ((validateReport files).map (fun es => es.length)).sum
  if total_errors = 0 then 0 else 1

/-! ### Concrete model of the external regex engine

The spec treats the regex capability as external (§4.3); the concrete test
inputs of this development use only concatenations of literal characters and
bracket character classes, so the engine is modelled exactly on that
fragment: a compiled pattern is a list of one-character items, and search is
leftmost-first by brute force, which is the documented behaviour of
`re.search`. -/

/-- One item of a compiled pattern: a literal character or a positive
character class, each consuming exactly one input character. -/
inductive RItem where
  | lit : Char → RItem
  | cls : List Char → RItem
  deriving DecidableEq, Repr

/-- Whether a single pattern item accepts a character. -/
def itemMatches : RItem → Char → Bool
  | RItem.lit c, d => c == d
  | RItem.cls cs, d => cs.contains d

/-- Whether the items match the input prefix, consuming one character each. -/
def itemsMatch : List RItem → List Char → Bool
  | [], _ => true
  | _ :: _, [] => false
  | it :: ps, c :: cs => itemMatches it c && itemsMatch ps cs

/-- Whether the compiled pattern matches at offset `i` of `s` (the match then
spans `[i, i + p.length)`, which must lie inside the string). -/
def matchAt (p : List RItem) (s : List Char) (i : Nat) : Bool :=
  decide (i + p.length ≤ s.length) && itemsMatch p (s.drop i)

/-- Brute-force scan for the least match offset, bounded by fuel. -/
def firstIdxGo (p : List RItem) (s : List Char) : Nat → Nat → Option Nat
  | _, 0 => none
  | pos, Nat.succ fuel =>
    if matchAt p s pos then some pos else firstIdxGo p s (pos + 1) fuel

/-- The least offset `i ≥ pos` where the pattern matches, if any. -/
def firstIdxFrom (p : List RItem) (s : List Char) (pos : Nat) : Option Nat :=
  firstIdxGo p s pos (s.length + 1 - pos)

/-- The slice `s[i : i+n]` as a string. -/
def sliceStr (s : List Char) (i n : Nat) : String :=
  String.mk ((s.drop i).take n)

/-- The match object the modelled engine reports for a match at offset `i`
(the fragment has no capture groups). -/
def mkMatch (p : List RItem) (s : List Char) (i : Nat) : MatchData :=
  { start := i, end_ := i + p.length, group0 := sliceStr s i p.length, groups := [] }

/-- The modelled engine's leftmost search at or after a position — the
primitive `re_search`/`re_finditer` are built from. -/
def pySearchFrom (p : List RItem) (s : String) (pos : Nat) : Option MatchData :=
  (firstIdxFrom p s.data pos).map (fun i => mkMatch p s.data i)

/-- Parses a bracket character class up to the closing `]`, returning the
class characters and the remaining input. -/
def parseClassFuel : Nat → List Char → Option (List Char × List Char)
  | 0, _ => none
  | _, [] => none
  | Nat.succ fuel, c :: rest =>
    if c = ']' then some ([], rest)
    else (parseClassFuel fuel rest).map (fun pr => (c :: pr.1, pr.2))

/-- Parses the modelled pattern fragment: `[...]` forms a character class,
any other character is a literal. -/
def parseRegexFuel : Nat → List Char → Option (List RItem)
  | _, [] => some []
  | 0, _ :: _ => none
  | Nat.succ fuel, c :: rest =>
    if c = '[' then
      match parseClassFuel (Nat.succ fuel) rest with
      | none => none
      | some (cs, r) => (parseRegexFuel fuel r).map (fun items => RItem.cls cs :: items)
    else
      (parseRegexFuel fuel rest).map (fun items => RItem.lit c :: items)

/-- Model of `re.compile` on the fragment: parse the pattern text (the flag
value is accepted but none of the five compile flags alters the semantics of
literals and plain classes, and every concrete use here passes empty flags). -/
def pyCompile (pattern : String) : Nat → Option (List RItem) :=
  fun _flag_value => parseRegexFuel pattern.length pattern.data

/-- Declarative statement of the executor's global contract (spec §4.3): the
list of all non-overlapping matches found scanning left to right — each
element is the leftmost match at or after the scan position, and the scan
resumes after its end (one past a zero-width match). -/
inductive ScanSeq (p : List RItem) (s : List Char) : Nat → List MatchData → Prop where
  | nil : ∀ pos, (∀ i, pos ≤ i → matchAt p s i = false) → ScanSeq p s pos []
  | cons : ∀ pos i rest,
      pos ≤ i →
      matchAt p s i = true →
      (∀ j, pos ≤ j → j < i → matchAt p s j = false) →
      ScanSeq p s (if p.length = 0 then i + 1 else i + p.length) rest →
      ScanSeq p s pos (mkMatch p s i :: rest)

/-! ### Concrete records used by the claim theorems -/

/-- The test of spec scenario 4: input `@[hex:41]@[hex:42]`, one expected
match `{start: 0, end: 2, match: "AB"}`. -/
def c1Test : Test :=
  { description := "hex placeholders", input := "@[hex:41]@[hex:42]",
    matchList := [{ start := 0, end_ := 2, matchStr := "AB", groups := none }] }

/-- The case of spec scenario 4: pattern `@[hex:41]@[hex:42]`, no flags. -/
def c1Case : TestCase :=
  { description := "hex placeholders", pattern := "@[hex:41]@[hex:42]",
    flags := some "", tests := [c1Test] }

/-- A global-mode test: pattern `a` over `aa ba`, expecting the three
occurrences of `a`. -/
def w7Test : Test :=
  { description := "global scan", input := "aa ba",
    matchList := [{ start := 0, end_ := 1, matchStr := "a", groups := none },
                  { start := 1, end_ := 2, matchStr := "a", groups := none },
                  { start := 4, end_ := 5, matchStr := "a", groups := none }] }

/-- The case holding `w7Test`: pattern `a`, flags `g`. -/
def w7Case : TestCase :=
  { description := "global scan", pattern := "a", flags := some "g",
    tests := [w7Test] }

/-- A sequence of `run_test` calls threaded through the runner state, as
`run_test_file`/`run_suite` perform them. -/
def applyTests {P : Type} (rc : String → Nat → Option P)
    (sf : P → String → Nat → Option MatchData)
    (st : RunnerState) (l : List (TestCase × Test)) : RunnerState :=
  l.foldl (fun s pr => (run_test rc sf s pr.1 pr.2).2) st

/-- A suite file exhibiting several violations at once: a case with an empty
`tests` array, and a case whose matches have `end < start` and negative
offsets. -/
def c8Demo : JValue :=
  JValue.arr [
    JValue.obj [("description", JValue.str "a"), ("pattern", JValue.str "x"),
      ("tests", JValue.arr [])],
    JValue.obj [("description", JValue.str "b"), ("pattern", JValue.str "y"),
      ("tests", JValue.arr [
        JValue.obj [("description", JValue.str "t"), ("input", JValue.str "i"),
          ("matches", JValue.arr [
            JValue.obj [("start", JValue.num 2), ("end", JValue.num 1),
              ("match", JValue.str "m")],
            JValue.obj [("start", JValue.num (-1)), ("end", JValue.num (-1)),
              ("match", JValue.str "m")]])]])]]

/-! ### Claim C1 — placeholder tokens in pattern and input -/

/-- C1 (counterexample): running the test whose pattern and input are both
`@[hex:41]@[hex:42]` does NOT pass — `run_test` performs no placeholder
translation, so the test fails rather than producing the expected match
`{start: 0, end: 2, match: "AB"}`. -/
theorem c1_counterexample :
    (run_test pyCompile pySearchFrom initRunner c1Case c1Test).1.passed = false := by
  decide

/-- C1 (amended): `run_test` uses the pattern and input verbatim.  The
pattern `@[hex:41]@[hex:42]` compiles as a literal `@`, the character class
`[hex:41]`, a literal `@` and the character class `[hex:42]`; that pattern
has no occurrence in the verbatim input `@[hex:41]@[hex:42]`, so the
executor returns no matches and the test fails with
`Match count mismatch: expected 1, got 0`. -/
theorem c1_verbatim_pattern_fails :
    pyCompile "@[hex:41]@[hex:42]" (flagValue "") =
      some [RItem.lit '@', RItem.cls ['h', 'e', 'x', ':', '4', '1'],
            RItem.lit '@', RItem.cls ['h', 'e', 'x', ':', '4', '2']] ∧
    find_matches pySearchFrom
        [RItem.lit '@', RItem.cls ['h', 'e', 'x', ':', '4', '1'],
         RItem.lit '@', RItem.cls ['h', 'e', 'x', ':', '4', '2']]
        "@[hex:41]@[hex:42]" false = [] ∧
    run_test pyCompile pySearchFrom initRunner c1Case c1Test =
      ({ passed := false, message := "Match count mismatch: expected 1, got 0" },
       { total_tests := 1, passed_tests := 0, failed_tests := 1, skipped_tests := 0 }) := by
  refine ⟨by decide, by decide, by decide⟩

/-! ### Claim C2 — compile failure outcomes -/

/-- C2: when pattern compilation fails (`compile_pattern` returns `None`),
the test passes exactly when the expected-match list is empty and fails
otherwise; the outcome is the same for every engine whose compilation fails
(the failure reason is irrelevant) and for every search function (no match
execution or comparison happens). -/
theorem c2_compile_failure_outcome {P Q : Type}
    (rc : String → Nat → Option P) (rc2 : String → Nat → Option Q)
    (sf : P → String → Nat → Option MatchData)
    (sf2 : Q → String → Nat → Option MatchData)
    (st : RunnerState) (tc : TestCase) (t : Test)
    (h : rc tc.pattern (flagValue (tc.flags.getD "")) = none)
    (h2 : rc2 tc.pattern (flagValue (tc.flags.getD "")) = none) :
    run_test rc sf st tc t = run_test rc2 sf2 st tc t ∧
    run_test rc sf st tc t =
      (if t.matchList.length = 0 then
        ({ passed := true, message := "Invalid pattern correctly rejected" },
         { st with total_tests := st.total_tests + 1,
                   passed_tests := st.passed_tests + 1 })
       else
        ({ passed := false, message := "Failed to compile pattern" },
         { st with total_tests := st.total_tests + 1,
                   failed_tests := st.failed_tests + 1 })) := by
  simp only [run_test, compile_pattern, h, h2]
  exact ⟨trivial, trivial⟩

/-- Witness for C2: a concrete always-failing compiler; a test with a
non-empty expected-match list fails with the compile diagnostic, independent
of two different search functions. -/
theorem c2_witness :
    run_test (fun _ _ => (none : Option Unit)) (fun _ _ _ => none) initRunner
        c1Case c1Test =
      ({ passed := false, message := "Failed to compile pattern" },
       { total_tests := 1, passed_tests := 0, failed_tests := 1, skipped_tests := 0 }) := by
  have h := c2_compile_failure_outcome
    (fun _ _ => (none : Option Unit)) (fun _ _ => (none : Option Unit))
    (fun _ _ _ => none) (fun _ _ _ => some (mkMatch [] [] 0))
    initRunner c1Case c1Test rfl rfl
  rw [h.2]
  decide

/-! ### Claim C4 — expectations without a `groups` key -/

/-- C4: when the expected-match record carries no `groups` key, the
comparison never inspects group values — the result is unchanged under any
replacement of the actual match's groups — and it passes exactly when
`start`, `end` and the matched text agree. -/
theorem c4_groups_absent_ignored (actual : MatchData) (expected : Expected)
    (h : expected.groups = none) :
    (∀ gs, compare_match { actual with groups := gs } expected =
      compare_match actual expected) ∧
    (compare_match actual expected = { passed := true, message := "" } ↔
      (actual.start = expected.start ∧ actual.end_ = expected.end_ ∧
       actual.group0 = expected.matchStr)) := by
  constructor
  · intro gs
    simp only [compare_match, h]
  · simp only [compare_match, h]
    split_ifs with h1 h2 h3 <;>
      simp_all [TestResult.mk.injEq]

/-- Witness for C4: the spec's own example — expected
`{start: 0, end: 2, match: "AB"}` with no `groups` key passes against an
actual match that captured a group. -/
theorem c4_witness :
    compare_match { start := 0, end_ := 2, group0 := "AB", groups := [some "A"] }
        { start := 0, end_ := 2, matchStr := "AB", groups := none } =
      { passed := true, message := "" } := by
  exact (c4_groups_absent_ignored _ _ rfl).2.mpr ⟨rfl, rfl, rfl⟩

/-! ### Claim C3 — comparator field order and short-circuiting -/

/-- The group loop reports the first position whose pair differs. -/
theorem groupLoop_first_diff :
    ∀ (l : List (Option String × Option String)) (n i : Nat)
      (eg ag : Option String),
    (∀ j, j < i → ∀ pr, l[j]? = some pr → pr.1 = pr.2) →
    l[i]? = some (eg, ag) → eg ≠ ag →
    groupLoop n l = some (n + i, eg, ag) := by
  intro l
  induction l with
  | nil => intro n i eg ag _ hi _; simp at hi
  | cons pr rest ih =>
    intro n i eg ag hpre hi hne
    obtain ⟨p1, p2⟩ := pr
    cases i with
    | zero =>
      simp only [List.getElem?_cons_zero, Option.some.injEq] at hi
      injection hi with h1 h2
      subst h1
      subst h2
      simp only [groupLoop]
      rw [if_pos hne]
      simp
    | succ i =>
      have h0 : p1 = p2 := by
        simpa using hpre 0 (Nat.succ_pos _) (p1, p2) (by simp)
      simp only [List.getElem?_cons_succ] at hi
      have hrec := ih (n + 1) i eg ag
        (fun j hj pr hpr => hpre (j + 1) (by omega) pr (by simpa using hpr))
        hi hne
      simp only [groupLoop]
      rw [if_neg (by simp [h0]), hrec]
      have harith : n + 1 + i = n + (i + 1) := by omega
      rw [harith]

/-- The group loop finds nothing when every pair agrees. -/
theorem groupLoop_all_eq :
    ∀ (l : List (Option String × Option String)), (∀ pr ∈ l, pr.1 = pr.2) →
    ∀ n, groupLoop n l = none := by
  intro l
  induction l with
  | nil => intro _ _; rfl
  | cons pr rest ih =>
    intro h n
    obtain ⟨p1, p2⟩ := pr
    have h0 : p1 = p2 := h (p1, p2) (List.mem_cons_self _ _)
    simp only [groupLoop]
    rw [if_neg (by simp [h0])]
    exact ih (fun q hq => h q (List.mem_cons_of_mem _ hq)) (n + 1)

/-- Pairs of a list zipped with itself agree componentwise. -/
theorem zip_self_eq {α : Type} :
    ∀ (l : List α) (pr : α × α), pr ∈ l.zip l → pr.1 = pr.2 := by
  intro l
  induction l with
  | nil => intro pr h; simp at h
  | cons x rest ih =>
    intro pr h
    simp only [List.zip_cons_cons, List.mem_cons] at h
    cases h with
    | inl h => subst h; rfl
    | inr h => exact ih pr h

/-- C3: `compare_match` checks `start`, then `end`, then the matched text,
then (only under a declared `groups` key) the group count and each group by
position, and its diagnostic names exactly the earliest differing field in
that order, short-circuiting at the first failure. -/
theorem c3_comparator_field_order (actual : MatchData) (expected : Expected) :
    let e1 := expected.start
    let a1 := actual.start
    let e2 := expected.end_
    let a2 := actual.end_
    let e3 := expected.matchStr
    let a3 := actual.group0
    (a1 ≠ e1 → compare_match actual expected =
      { passed := false,
        message := s!"Start position mismatch: expected {e1}, got {a1}" }) ∧
    (a1 = e1 → a2 ≠ e2 → compare_match actual expected =
      { passed := false,
        message := s!"End position mismatch: expected {e2}, got {a2}" }) ∧
    (a1 = e1 → a2 = e2 → a3 ≠ e3 → compare_match actual expected =
      { passed := false,
        message := s!"Match text mismatch: expected \x27{e3}\x27, got \x27{a3}\x27" }) ∧
    (∀ gs, expected.groups = some gs → a1 = e1 → a2 = e2 → a3 = e3 →
      actual.groups.length ≠ gs.length →
      let e4 := gs.length
      let a4 := actual.groups.length
      compare_match actual expected =
        { passed := false,
          message := s!"Group count mismatch: expected {e4}, got {a4}" }) ∧
    (∀ gs i eg ag, expected.groups = some gs → a1 = e1 → a2 = e2 → a3 = e3 →
      actual.groups.length = gs.length →
      (∀ j, j < i → ∀ pr, (gs.zip actual.groups)[j]? = some pr → pr.1 = pr.2) →
      (gs.zip actual.groups)[i]? = some (eg, ag) → eg ≠ ag →
      let k := i + 1
      let e5 := pyShow eg
      let a5 := pyShow ag
      compare_match actual expected =
        { passed := false,
          message := s!"Group {k} mismatch: expected \x27{e5}\x27, got \x27{a5}\x27" }) ∧
    (a1 = e1 → a2 = e2 → a3 = e3 →
      (expected.groups = none ∨ expected.groups = some actual.groups) →
      compare_match actual expected = { passed := true, message := "" }) := by
  dsimp only
  refine ⟨?_, ?_, ?_, ?_, ?_, ?_⟩
  · intro h
    simp only [compare_match]
    rw [if_pos h]
  · intro h1 h2
    simp only [compare_match]
    rw [if_neg (not_not_intro h1), if_pos h2]
  · intro h1 h2 h3
    simp only [compare_match]
    rw [if_neg (not_not_intro h1), if_neg (not_not_intro h2), if_pos h3]
  · intro gs hg h1 h2 h3 hlen
    simp only [compare_match, hg]
    rw [if_neg (not_not_intro h1), if_neg (not_not_intro h2),
      if_neg (not_not_intro h3), if_pos hlen]
  · intro gs i eg ag hg h1 h2 h3 hlen hpre hi hne
    simp only [compare_match, hg]
    rw [if_neg (not_not_intro h1), if_neg (not_not_intro h2),
      if_neg (not_not_intro h3), if_neg (not_not_intro hlen),
      groupLoop_first_diff (gs.zip actual.groups) 0 i eg ag hpre hi hne]
    simp
  · intro h1 h2 h3 hor
    cases hor with
    | inl h =>
      simp only [compare_match, h]
      rw [if_neg (not_not_intro h1), if_neg (not_not_intro h2),
        if_neg (not_not_intro h3)]
    | inr h =>
      simp only [compare_match, h]
      rw [if_neg (not_not_intro h1), if_neg (not_not_intro h2),
        if_neg (not_not_intro h3), if_neg (not_not_intro rfl),
        groupLoop_all_eq (actual.groups.zip actual.groups)
          (zip_self_eq actual.groups) 0]

/-- Witness for C3: against an actual match differing in both `end` and the
matched text, the diagnostic names only `end`; with equal prefix fields and
two groups whose second differs, the diagnostic names group 2. -/
theorem c3_witness :
    compare_match { start := 1, end_ := 2, group0 := "x", groups := [] }
        { start := 1, end_ := 3, matchStr := "y", groups := some [some "g"] } =
      { passed := false, message := "End position mismatch: expected 3, got 2" } ∧
    compare_match { start := 0, end_ := 1, group0 := "ab",
                    groups := [some "x", some "z"] }
        { start := 0, end_ := 1, matchStr := "ab",
          groups := some [some "x", some "y"] } =
      { passed := false,
        message := "Group 2 mismatch: expected \x27y\x27, got \x27z\x27" } := by
  constructor
  · exact (c3_comparator_field_order _ _).2.1 rfl (by decide)
  · refine (c3_comparator_field_order _ _).2.2.2.2.1
      [some "x", some "y"] 1 (some "y") (some "z") rfl rfl rfl rfl rfl
      ?_ (by simp) (by decide)
    intro j hj pr hpr
    interval_cases j
    simp only [List.zip_cons_cons, List.getElem?_cons_zero,
      Option.some.injEq] at hpr
    rw [hpr.symm]

/-! ### Claim C6 — flag mapping -/

/-- The OR-accumulation of `compile_pattern` equals the sum of the five
individual flag constants present. -/
theorem flagValue_cases (f : String) :
    flagValue f =
      (if pyIn 'i' f then 2 else 0) + (if pyIn 'm' f then 8 else 0) +
      (if pyIn 's' f then 16 else 0) + (if pyIn 'x' f then 64 else 0) +
      (if pyIn 'u' f then 32 else 0) := by
  unfold flagValue
  cases h1 : pyIn 'i' f <;> cases h2 : pyIn 'm' f <;> cases h3 : pyIn 's' f <;>
    cases h4 : pyIn 'x' f <;> cases h5 : pyIn 'u' f <;>
      simp only [h1, h2, h3, h4, h5] <;> rfl

/-- C6: the flag value handed to `re.compile` carries exactly the bit of
`re.IGNORECASE` (bit 1) iff `i` occurs, `re.MULTILINE` (bit 3) iff `m`,
`re.DOTALL` (bit 4) iff `s`, `re.UNICODE` (bit 5) iff `u`, `re.VERBOSE`
(bit 6) iff `x`; no other bit is ever set, so `g` (and any unknown
character, and any duplicate) contributes nothing: the value depends only on
which of `i`, `m`, `s`, `x`, `u` occur.  `g` only selects the executor's
search mode: without `g` in the flags, `run_test` consults the engine
exclusively through a position-0 search. -/
theorem c6_flag_mapping (f : String) :
    ((flagValue f).testBit 1 = pyIn 'i' f) ∧
    ((flagValue f).testBit 3 = pyIn 'm' f) ∧
    ((flagValue f).testBit 4 = pyIn 's' f) ∧
    ((flagValue f).testBit 5 = pyIn 'u' f) ∧
    ((flagValue f).testBit 6 = pyIn 'x' f) ∧
    (∀ k, (flagValue f).testBit k = true → k ∈ ([1, 3, 4, 5, 6] : List Nat)) ∧
    (∀ g : String,
      (∀ c, c ∈ (['i', 'm', 's', 'x', 'u'] : List Char) → pyIn c f = pyIn c g) →
      flagValue f = flagValue g) ∧
    (∀ (P : Type) (rc : String → Nat → Option P)
      (sf sf2 : P → String → Nat → Option MatchData)
      (st : RunnerState) (tc : TestCase) (t : Test),
      pyIn 'g' (tc.flags.getD "") = false →
      (∀ q s, sf q s 0 = sf2 q s 0) →
      run_test rc sf st tc t = run_test rc sf2 st tc t) := by
  have hv := flagValue_cases f
  have hbound : flagValue f < 128 := by
    rw [hv]; split_ifs <;> decide
  refine ⟨?_, ?_, ?_, ?_, ?_, ?_, ?_, ?_⟩
  · rw [hv]
    cases h1 : pyIn 'i' f <;> cases h2 : pyIn 'm' f <;> cases h3 : pyIn 's' f <;>
      cases h4 : pyIn 'x' f <;> cases h5 : pyIn 'u' f <;> decide
  · rw [hv]
    cases h1 : pyIn 'i' f <;> cases h2 : pyIn 'm' f <;> cases h3 : pyIn 's' f <;>
      cases h4 : pyIn 'x' f <;> cases h5 : pyIn 'u' f <;> decide
  · rw [hv]
    cases h1 : pyIn 'i' f <;> cases h2 : pyIn 'm' f <;> cases h3 : pyIn 's' f <;>
      cases h4 : pyIn 'x' f <;> cases h5 : pyIn 'u' f <;> decide
  · rw [hv]
    cases h1 : pyIn 'i' f <;> cases h2 : pyIn 'm' f <;> cases h3 : pyIn 's' f <;>
      cases h4 : pyIn 'x' f <;> cases h5 : pyIn 'u' f <;> decide
  · rw [hv]
    cases h1 : pyIn 'i' f <;> cases h2 : pyIn 'm' f <;> cases h3 : pyIn 's' f <;>
      cases h4 : pyIn 'x' f <;> cases h5 : pyIn 'u' f <;> decide
  · intro k hk
    rcases Nat.lt_or_ge k 7 with h7 | h7
    · interval_cases k
      · exfalso
        rw [hv] at hk
        revert hk
        split_ifs <;> decide
      · decide
      · exfalso
        rw [hv] at hk
        revert hk
        split_ifs <;> decide
      · decide
      · decide
      · decide
      · decide
    · exfalso
      have h2k : (128 : Nat) ≤ 2 ^ k := by
        calc (128 : Nat) = 2 ^ 7 := by norm_num
          _ ≤ 2 ^ k := Nat.pow_le_pow_right (by norm_num : 0 < 2) h7
      have hfalse : (flagValue f).testBit k = false :=
        Nat.testBit_eq_false_of_lt (lt_of_lt_of_le hbound h2k)
      rw [hfalse] at hk
      exact Bool.false_ne_true hk
  · intro g hcg
    rw [hv, flagValue_cases g,
      hcg 'i' (by simp), hcg 'm' (by simp), hcg 's' (by simp),
      hcg 'x' (by simp), hcg 'u' (by simp)]
  · intro P rc sf sf2 st tc t hg hsf
    simp only [run_test]
    cases hc : compile_pattern rc tc.pattern (tc.flags.getD "") with
    | none => rfl
    | some p =>
      simp only [find_matches, hg, Bool.false_eq_true, if_false,
        re_search, hsf]

/-- Witness for C6: `m` in `"img"` sets the multiline bit; unknown characters
and duplicates are ignored (`"im"` and `"m!gmi"` compile identically); and
with no `g` flag the runner's outcome only depends on position-0 searches. -/
theorem c6_witness :
    (flagValue "img").testBit 3 = true ∧
    flagValue "im" = flagValue "m!gmi" ∧
    run_test (fun _ _ => (some () : Option Unit)) (fun _ _ _ => none) initRunner
        { description := "d", pattern := "p", flags := some "i", tests := [] }
        { description := "t", input := "zz", matchList := [] } =
      run_test (fun _ _ => (some () : Option Unit))
        (fun _ _ pos => if pos = 0 then none else some (mkMatch [] [] 0))
        initRunner
        { description := "d", pattern := "p", flags := some "i", tests := [] }
        { description := "t", input := "zz", matchList := [] } := by
  refine ⟨(c6_flag_mapping "img").2.1.trans (by decide), ?_, ?_⟩
  · exact (c6_flag_mapping "im").2.2.2.2.2.2.1 "m!gmi" (by decide)
  · exact (c6_flag_mapping "i").2.2.2.2.2.2.2 Unit
      (fun _ _ => some ()) (fun _ _ _ => none)
      (fun _ _ pos => if pos = 0 then none else some (mkMatch [] [] 0))
      initRunner
      { description := "d", pattern := "p", flags := some "i", tests := [] }
      { description := "t", input := "zz", matchList := [] }
      (by decide) (fun q s => rfl)

/-! ### Claim C7 — count check, then pairwise comparison -/

/-- The pairwise loop finds no failure exactly when every pair compares as
passed. -/
theorem compareLoop_none_iff :
    ∀ (l : List (MatchData × Expected)) (n : Nat),
    compareLoop n l = none ↔
      ∀ pr ∈ l, (compare_match pr.1 pr.2).passed = true := by
  intro l
  induction l with
  | nil => intro n; simp [compareLoop]
  | cons pr rest ih =>
    intro n
    obtain ⟨a, e⟩ := pr
    cases hres : (compare_match a e).passed
    · simp [compareLoop, hres, List.forall_mem_cons]
    · simp [compareLoop, hres, ih (n + 1), List.forall_mem_cons]

/-- C7: once the pattern compiles, a match-count mismatch fails the test with
the count diagnostic (its outcome fixed before any per-match comparison);
with equal counts the test passes exactly when every `(actual, expected)`
pair in list order compares as passed, and the counters record the outcome. -/
theorem c7_count_then_pairwise {P : Type} (rc : String → Nat → Option P)
    (sf : P → String → Nat → Option MatchData)
    (st : RunnerState) (tc : TestCase) (t : Test) (p : P)
    (hc : rc tc.pattern (flagValue (tc.flags.getD "")) = some p) :
    let actual := find_matches sf p t.input (pyIn 'g' (tc.flags.getD ""))
    (actual.length ≠ t.matchList.length →
      let e := t.matchList.length
      let a := actual.length
      run_test rc sf st tc t =
        ({ passed := false,
           message := s!"Match count mismatch: expected {e}, got {a}" },
         { st with total_tests := st.total_tests + 1,
                   failed_tests := st.failed_tests + 1 })) ∧
    (actual.length = t.matchList.length →
      (((run_test rc sf st tc t).1.passed = true) ↔
        ∀ pr ∈ actual.zip t.matchList,
          (compare_match pr.1 pr.2).passed = true) ∧
      ((run_test rc sf st tc t).1.passed = true →
        run_test rc sf st tc t =
          ({ passed := true, message := "" },
           { st with total_tests := st.total_tests + 1,
                     passed_tests := st.passed_tests + 1 })) ∧
      ((run_test rc sf st tc t).1.passed = false →
        (run_test rc sf st tc t).2 =
          { st with total_tests := st.total_tests + 1,
                    failed_tests := st.failed_tests + 1 })) := by
  dsimp only
  simp only [run_test, compile_pattern, hc]
  constructor
  · intro hne
    rw [if_pos hne]
  · intro heq
    rw [if_neg (not_not_intro heq)]
    rcases hcl : compareLoop 0
        ((find_matches sf p t.input (pyIn 'g' (tc.flags.getD ""))).zip
          t.matchList) with _ | pr
    · simp only [hcl]
      refine ⟨iff_of_true trivial ((compareLoop_none_iff _ 0).mp hcl),
        fun _ => trivial, fun h => Bool.noConfusion h⟩
    · obtain ⟨i, msg⟩ := pr
      simp only [hcl]
      refine ⟨?_, fun h => Bool.noConfusion h, fun _ => trivial⟩
      refine iff_of_false (fun h => Bool.noConfusion h) (fun hall => ?_)
      rw [(compareLoop_none_iff _ 0).mpr hall] at hcl
      cases hcl

/-- Witness for C7: the three-match global test has matching counts and every
pair compares equal, so the test passes. -/
theorem c7_witness :
    (run_test pyCompile pySearchFrom initRunner w7Case w7Test).1.passed = true := by
  have h := c7_count_then_pairwise pyCompile pySearchFrom initRunner w7Case
    w7Test [RItem.lit 'a'] (by decide)
  exact (h.2 (by decide)).1.mpr (by decide)

/-! ### Claim C10 — counter bookkeeping of `run_test` -/

/-- Every call of `run_test` bumps `total_tests` by one, exactly one of
`passed_tests`/`failed_tests` by one, and leaves `skipped_tests` alone. -/
theorem run_test_counters {P : Type} (rc : String → Nat → Option P)
    (sf : P → String → Nat → Option MatchData)
    (st : RunnerState) (tc : TestCase) (t : Test) :
    ((run_test rc sf st tc t).2.total_tests = st.total_tests + 1) ∧
    (((run_test rc sf st tc t).2.passed_tests = st.passed_tests + 1 ∧
      (run_test rc sf st tc t).2.failed_tests = st.failed_tests) ∨
     ((run_test rc sf st tc t).2.passed_tests = st.passed_tests ∧
      (run_test rc sf st tc t).2.failed_tests = st.failed_tests + 1)) ∧
    ((run_test rc sf st tc t).2.skipped_tests = st.skipped_tests) := by
  simp only [run_test, compile_pattern]
  rcases hc : rc tc.pattern (flagValue (tc.flags.getD "")) with _ | p <;>
    simp only [hc]
  · split
    · exact ⟨rfl, Or.inl ⟨rfl, rfl⟩, rfl⟩
    · exact ⟨rfl, Or.inr ⟨rfl, rfl⟩, rfl⟩
  · split
    · exact ⟨rfl, Or.inr ⟨rfl, rfl⟩, rfl⟩
    · split
      · exact ⟨rfl, Or.inr ⟨rfl, rfl⟩, rfl⟩
      · exact ⟨rfl, Or.inl ⟨rfl, rfl⟩, rfl⟩

/-- Any sequence of `run_test` calls preserves `total = passed + failed` and
never touches `skipped_tests`. -/
theorem applyTests_invariant {P : Type} (rc : String → Nat → Option P)
    (sf : P → String → Nat → Option MatchData) :
    ∀ (l : List (TestCase × Test)) (st : RunnerState),
    st.total_tests = st.passed_tests + st.failed_tests →
    (applyTests rc sf st l).total_tests =
      (applyTests rc sf st l).passed_tests +
        (applyTests rc sf st l).failed_tests ∧
    (applyTests rc sf st l).skipped_tests = st.skipped_tests := by
  intro l
  induction l with
  | nil => intro st h; exact ⟨h, rfl⟩
  | cons pr rest ih =>
    intro st h
    obtain ⟨h1, h2, h3⟩ := run_test_counters rc sf st pr.1 pr.2
    have hst1 : (run_test rc sf st pr.1 pr.2).2.total_tests =
        (run_test rc sf st pr.1 pr.2).2.passed_tests +
          (run_test rc sf st pr.1 pr.2).2.failed_tests := by
      rcases h2 with ⟨hp, hf⟩ | ⟨hp, hf⟩ <;> omega
    have hrec := ih ((run_test rc sf st pr.1 pr.2).2) hst1
    simp only [applyTests, List.foldl_cons] at hrec ⊢
    exact ⟨hrec.1, hrec.2.trans h3⟩

/-- C10: after every `run_test` call the counters keep
`total_tests = passed_tests + failed_tests`; each call bumps `total_tests`
by exactly one and exactly one of `passed_tests`/`failed_tests` by one;
`skipped_tests` is untouched, and along any call sequence from the freshly
initialised runner it stays `0` while the sum invariant holds. -/
theorem c10_counter_invariant {P : Type} (rc : String → Nat → Option P)
    (sf : P → String → Nat → Option MatchData)
    (st : RunnerState) (tc : TestCase) (t : Test) :
    ((run_test rc sf st tc t).2.total_tests = st.total_tests + 1) ∧
    (((run_test rc sf st tc t).2.passed_tests = st.passed_tests + 1 ∧
      (run_test rc sf st tc t).2.failed_tests = st.failed_tests) ∨
     ((run_test rc sf st tc t).2.passed_tests = st.passed_tests ∧
      (run_test rc sf st tc t).2.failed_tests = st.failed_tests + 1)) ∧
    ((run_test rc sf st tc t).2.skipped_tests = st.skipped_tests) ∧
    (st.total_tests = st.passed_tests + st.failed_tests →
      (run_test rc sf st tc t).2.total_tests =
        (run_test rc sf st tc t).2.passed_tests +
          (run_test rc sf st tc t).2.failed_tests) ∧
    (∀ l : List (TestCase × Test),
      (applyTests rc sf initRunner l).skipped_tests = 0 ∧
      (applyTests rc sf initRunner l).total_tests =
        (applyTests rc sf initRunner l).passed_tests +
          (applyTests rc sf initRunner l).failed_tests) := by
  obtain ⟨h1, h2, h3⟩ := run_test_counters rc sf st tc t
  refine ⟨h1, h2, h3, ?_, ?_⟩
  · intro h
    rcases h2 with ⟨hp, hf⟩ | ⟨hp, hf⟩ <;> omega
  · intro l
    have hinv := applyTests_invariant rc sf l initRunner rfl
    exact ⟨hinv.2, hinv.1⟩

/-- Witness for C10: from the fresh runner, one failing call keeps the
`total = passed + failed` identity. -/
theorem c10_witness :
    (run_test (fun _ _ => (none : Option Unit)) (fun _ _ _ => none) initRunner
        c1Case c1Test).2.total_tests =
      (run_test (fun _ _ => (none : Option Unit)) (fun _ _ _ => none) initRunner
          c1Case c1Test).2.passed_tests +
        (run_test (fun _ _ => (none : Option Unit)) (fun _ _ _ => none) initRunner
            c1Case c1Test).2.failed_tests := by
  exact (c10_counter_invariant (fun _ _ => (none : Option Unit))
    (fun _ _ _ => none) initRunner c1Case c1Test).2.2.2.1 rfl

/-! ### Claim C9 — empty run divides by zero -/

/-- `run_test_file` over cases with no tests leaves the counters unchanged
and reports the file as passed. -/
theorem run_test_file_no_tests {P : Type} (rc : String → Nat → Option P)
    (sf : P → String → Nat → Option MatchData) (cs : List TestCase) :
    ∀ (st : RunnerState), (∀ c ∈ cs, c.tests = []) →
    run_test_file rc sf st cs = (st, true) := by
  induction cs with
  | nil => intro st _; rfl
  | cons c rest ih =>
    intro st h
    have hc : c.tests = [] := h c (List.mem_cons_self _ _)
    simp only [run_test_file, List.foldl_cons, hc, List.foldl_nil]
    exact ih st (fun c2 h2 => h c2 (List.mem_cons_of_mem _ h2))

/-- Folding `run_test_file` over files whose cases all have empty test lists
leaves the runner state unchanged. -/
theorem run_suite_fold_no_tests {P : Type} (rc : String → Nat → Option P)
    (sf : P → String → Nat → Option MatchData) :
    ∀ (files : List (List TestCase)) (st : RunnerState),
    (∀ f ∈ files, ∀ c ∈ f, c.tests = []) →
    files.foldl (fun acc f => (run_test_file rc sf acc f).1) st = st := by
  intro files
  induction files with
  | nil => intro st _; rfl
  | cons f rest ih =>
    intro st h
    simp only [List.foldl_cons]
    rw [run_test_file_no_tests rc sf f st (h f (List.mem_cons_self _ _))]
    exact ih st (fun f2 h2 => h f2 (List.mem_cons_of_mem _ h2))

/-- C9: when the run executes zero tests — no files at all, or files whose
cases contribute no tests — `total_tests` stays `0`, and the summary line's
`100 * passed_tests / total_tests` raises `ZeroDivisionError`, so
`run_suite` errors instead of returning a pass/fail result. -/
theorem c9_zero_tests_division {P : Type} (rc : String → Nat → Option P)
    (sf : P → String → Nat → Option MatchData)
    (files : List (List TestCase))
    (h : ∀ f ∈ files, ∀ c ∈ f, c.tests = []) :
    run_suite rc sf initRunner files =
      Except.error "ZeroDivisionError: division by zero" := by
  simp only [run_suite]
  rw [run_suite_fold_no_tests rc sf files initRunner h]
  rfl

/-- Witness for C9: one file with one test-less case crashes the summary. -/
theorem c9_witness :
    run_suite (fun _ _ => (none : Option Unit)) (fun _ _ _ => none) initRunner
        [[{ description := "c", pattern := "p", flags := none, tests := [] }]] =
      Except.error "ZeroDivisionError: division by zero" := by
  apply c9_zero_tests_division
  intro f hf c hc
  simp only [List.mem_singleton] at hf
  subst hf
  simp only [List.mem_singleton] at hc
  subst hc
  rfl

/-! ### Claim C5 — executor modes -/

/-- No match can start beyond the end of the input. -/
theorem matchAt_oob (p : List RItem) (s : List Char) (i : Nat)
    (h : s.length < i) : matchAt p s i = false := by
  have hn : ¬(i + p.length ≤ s.length) := by omega
  simp [matchAt, hn]

/-- A successful bounded scan returns the least matching offset at or after
the start position. -/
theorem firstIdxGo_some (p : List RItem) (s : List Char) :
    ∀ (fuel pos i : Nat), firstIdxGo p s pos fuel = some i →
    pos ≤ i ∧ matchAt p s i = true ∧
      ∀ j, pos ≤ j → j < i → matchAt p s j = false := by
  intro fuel
  induction fuel with
  | zero => intro pos i h; cases h
  | succ fuel ih =>
    intro pos i h
    unfold firstIdxGo at h
    by_cases hm : matchAt p s pos = true
    · rw [if_pos hm] at h
      cases h
      exact ⟨Nat.le_refl _, hm, fun j h1 h2 => absurd h2 (by omega)⟩
    · rw [if_neg hm] at h
      obtain ⟨h1, h2, h3⟩ := ih (pos + 1) i h
      refine ⟨by omega, h2, fun j hj1 hj2 => ?_⟩
      rcases Nat.eq_or_lt_of_le hj1 with heq | hlt
      · subst heq
        cases hb : matchAt p s pos
        · rfl
        · exact absurd hb hm
      · exact h3 j hlt hj2

/-- A failed bounded scan means no offset in the scanned window matches. -/
theorem firstIdxGo_none (p : List RItem) (s : List Char) :
    ∀ (fuel pos : Nat), firstIdxGo p s pos fuel = none →
    ∀ j, pos ≤ j → j < pos + fuel → matchAt p s j = false := by
  intro fuel
  induction fuel with
  | zero => intro pos _ j h1 h2; omega
  | succ fuel ih =>
    intro pos h j h1 h2
    unfold firstIdxGo at h
    by_cases hm : matchAt p s pos = true
    · rw [if_pos hm] at h; cases h
    · rw [if_neg hm] at h
      rcases Nat.eq_or_lt_of_le h1 with heq | hlt
      · subst heq
        cases hb : matchAt p s pos
        · rfl
        · exact absurd hb hm
      · exact ih (pos + 1) h j hlt (by omega)

/-- `firstIdxFrom` failure means no match starts at or after the position. -/
theorem firstIdxFrom_none (p : List RItem) (s : List Char) (pos : Nat)
    (h : firstIdxFrom p s pos = none) :
    ∀ j, pos ≤ j → matchAt p s j = false := by
  intro j hj
  by_cases hb : j ≤ s.length
  · exact firstIdxGo_none p s (s.length + 1 - pos) pos h j hj (by omega)
  · exact matchAt_oob p s j (by omega)

/-- `firstIdxFrom` success returns the leftmost matching offset at or after
the position. -/
theorem firstIdxFrom_some (p : List RItem) (s : List Char) (pos i : Nat)
    (h : firstIdxFrom p s pos = some i) :
    pos ≤ i ∧ matchAt p s i = true ∧
      ∀ j, pos ≤ j → j < i → matchAt p s j = false :=
  firstIdxGo_some p s (s.length + 1 - pos) pos i h

/-- The `finditer` loop over the modelled engine produces exactly the
left-to-right non-overlapping scan sequence. -/
theorem finditerAux_scan (p : List RItem) (s : String) :
    ∀ (fuel pos : Nat), s.length + 2 ≤ fuel + pos →
    ScanSeq p s.data pos (finditerAux pySearchFrom p s fuel pos) := by
  have hsd : s.data.length = s.length := rfl
  intro fuel
  induction fuel with
  | zero =>
    intro pos h
    exact ScanSeq.nil pos (fun i hi => matchAt_oob p s.data i (by omega))
  | succ fuel ih =>
    intro pos h
    unfold finditerAux
    cases hs : pySearchFrom p s pos with
    | none =>
      refine ScanSeq.nil pos (fun i hi => ?_)
      unfold pySearchFrom at hs
      cases hf : firstIdxFrom p s.data pos with
      | none => exact firstIdxFrom_none p s.data pos hf i hi
      | some j => rw [hf] at hs; cases hs
    | some m =>
      unfold pySearchFrom at hs
      cases hf : firstIdxFrom p s.data pos with
      | none => rw [hf] at hs; cases hs
      | some i =>
        rw [hf] at hs
        simp only [Option.map_some', Option.some.injEq] at hs
        obtain ⟨hle, hm, hleft⟩ := firstIdxFrom_some p s.data pos i hf
        subst hs
        have hnext : (if (mkMatch p s.data i).end_ = (mkMatch p s.data i).start
            then (mkMatch p s.data i).end_ + 1
            else (mkMatch p s.data i).end_) =
            (if p.length = 0 then i + 1 else i + p.length) := by
          simp only [mkMatch]
          by_cases hp : p.length = 0
          · rw [if_pos (by omega), if_pos hp]
            omega
          · rw [if_neg (by omega), if_neg hp]
        show ScanSeq p s.data pos
          (mkMatch p s.data i :: finditerAux pySearchFrom p s fuel
            (if (mkMatch p s.data i).end_ = (mkMatch p s.data i).start
              then (mkMatch p s.data i).end_ + 1
              else (mkMatch p s.data i).end_))
        rw [hnext]
        refine ScanSeq.cons pos i _ hle hm hleft ?_
        apply ih
        by_cases hp : p.length = 0
        · rw [if_pos hp]; omega
        · rw [if_neg hp]; omega

/-- C5: with `global = true` the executor returns the full left-to-right
scan sequence of non-overlapping matches (possibly empty); with
`global = false` it returns the single leftmost match from position 0, or
the empty list when no position matches. -/
theorem c5_executor_modes (p : List RItem) (s : String) :
    ScanSeq p s.data 0 (find_matches pySearchFrom p s true) ∧
    ((find_matches pySearchFrom p s false = [] ∧
      ∀ i, matchAt p s.data i = false) ∨
     (∃ m, find_matches pySearchFrom p s false = [m] ∧
       matchAt p s.data m.start = true ∧
       (∀ j, j < m.start → matchAt p s.data j = false) ∧
       m.end_ = m.start + p.length ∧
       m.group0 = sliceStr s.data m.start p.length)) := by
  constructor
  · show ScanSeq p s.data 0 (re_finditer pySearchFrom p s)
    unfold re_finditer
    exact finditerAux_scan p s (s.length + 2) 0 (by omega)
  · have hfm : find_matches pySearchFrom p s false =
        (match pySearchFrom p s 0 with
          | some m => [m]
          | none => []) := rfl
    rw [hfm]
    cases hs : pySearchFrom p s 0 with
    | none =>
      left
      refine ⟨rfl, fun i => ?_⟩
      unfold pySearchFrom at hs
      cases hf : firstIdxFrom p s.data 0 with
      | none => exact firstIdxFrom_none p s.data 0 hf i (Nat.zero_le _)
      | some j => rw [hf] at hs; cases hs
    | some m =>
      right
      unfold pySearchFrom at hs
      cases hf : firstIdxFrom p s.data 0 with
      | none => rw [hf] at hs; cases hs
      | some i =>
        rw [hf] at hs
        simp only [Option.map_some', Option.some.injEq] at hs
        obtain ⟨_, hm, hleft⟩ := firstIdxFrom_some p s.data 0 i hf
        subst hs
        exact ⟨mkMatch p s.data i, rfl, hm,
          fun j hj => hleft j (Nat.zero_le _) hj, rfl, rfl⟩

/-! ### Claim C8 — validator collects everything; exit code -/

/-- A sum of naturals is zero exactly when every summand is. -/
theorem natsum_zero_iff : ∀ (l : List Nat), l.sum = 0 ↔ ∀ x ∈ l, x = 0 := by
  intro l
  induction l with
  | nil => simp
  | cons x rest ih =>
    simp only [List.sum_cons, List.forall_mem_cons]
    constructor
    · intro h
      have hx : x = 0 := by omega
      have hr : rest.sum = 0 := by omega
      exact ⟨hx, ih.mp hr⟩
    · intro h
      have := ih.mpr h.2
      omega

/-- C8: the validation exit code is `0` exactly when no file has a
violation (so it is non-zero iff at least one violation exists across all
files); the per-file reports of any two file groups are simply concatenated
(validation of later files is unaffected by earlier failures); and a file
holding an empty `tests` array, an `end < start` match and negative offsets
reports all four violations together. -/
theorem c8_validator_collects_and_exit :
    (∀ files : List (Except String JValue),
      validate_main files = 0 ↔ ∀ f ∈ files, validate_file f = []) ∧
    (∀ fs1 fs2 : List (Except String JValue),
      validateReport (fs1 ++ fs2) = validateReport fs1 ++ validateReport fs2) ∧
    validate_test_file c8Demo =
      ["Test case 0: \x27tests\x27 array cannot be empty",
       "Test case 1: Test 0: Match 0: \x27end\x27 must be >= \x27start\x27",
       "Test case 1: Test 0: Match 1: \x27start\x27 must be non-negative",
       "Test case 1: Test 0: Match 1: \x27end\x27 must be non-negative"] := by
  refine ⟨?_, ?_, by decide⟩
  · intro files
    simp only [validate_main, validateReport, List.map_map]
    split_ifs with hz
    · refine iff_of_true rfl (fun f hf => ?_)
      have hall := (natsum_zero_iff _).mp hz
      have hlen := hall ((validate_file f).length)
        (List.mem_map_of_mem _ hf)
      exact List.length_eq_zero.mp hlen
    · refine iff_of_false (by decide) (fun hall => hz ?_)
      refine (natsum_zero_iff _).mpr (fun x hx => ?_)
      obtain ⟨f, hf, rfl⟩ := List.mem_map.mp hx
      simp [hall f hf]
  · intro fs1 fs2
    simp [validateReport]

/-- Witness for C8: a well-formed singleton file list exits with code 0. -/
theorem c8_witness :
    validate_main [Except.ok (JValue.arr [])] = 0 := by
  exact (c8_validator_collects_and_exit.1 [Except.ok (JValue.arr [])]).mpr
    (by decide)
